import Mathlib

/-!
Verification development for the tool-calling translation and detection engine of
LLMToolBridge (a proxy that lets structured function-calling clients talk to a
tool-naive text-only LLM backend).

The development shallowly embeds the core TypeScript code:

* `ToolConverter` (tool-converter.ts): `convertToolsToSystemPrompt`,
  `extractToolCallFromResponse`, `extractTextBeforeToolCall`;
* `ProxyHandler` (proxy-handler.ts): the setup phase shared by
  `handleRequest` and `handleStreamingRequest` (tool-prompt injection),
  the per-round outcome of `handleRequest`, and the full event sequence
  produced by `handleStreamingRequest` for a given list of backend deltas.

Modelling conventions:

* Strings are Lean `String`s; scanning code that indexes `response[i]` is
  translated to structural recursion over `String.data` with an explicit
  position counter.
* `JSON.parse` / `JSON.stringify` are modelled by an executable recursive
  descent JSON reader (`jsonParse`) and writer (`stringifyJ`, `prettyJ`).
  One deliberate restriction: JSON numbers are modelled as integers (no
  fraction/exponent forms); no input appearing in this development contains
  a non-integer number.  Duplicate object keys overwrite the earlier value,
  as in JavaScript.
* JavaScript truthiness of a JSON value is `truthy`; a missing field
  (`undefined`) is `none`, and `truthyOpt` extends truthiness to it.
* The regular expressions used by the source for fenced code blocks and for
  the raw-JSON span are translated to explicit leftmost-match scanners with
  the same lazy-quantifier semantics on the inputs considered here; the
  whitespace swallowed greedily by `\s*` before a lazily matched capture is
  folded into the capture, which the source always trims, so the trimmed
  result is unchanged.
* The generated tool-call `id` (timestamp plus random suffix) and the
  constant discriminator `type: 'function'` are omitted from `ToolCallF`:
  the id is nondeterministic and no claim concerns either field.
* The backend network call is outside the model: the backend reply is an
  input (a completed string for the non-streaming path, a list of text
  deltas for the streaming path).
-/

namespace LLMToolBridge

/-- JSON values, as produced by `JSON.parse` (numbers restricted to integers). -/
inductive Json where
  | null
  | bool (b : Bool)
  | num (n : Int)
  | str (s : String)
  | arr (elems : List Json)
  | obj (fields : List (String × Json))
deriving Repr

/-- Whitespace recognised by `String.prototype.trim`, the regex class `\s`,
and the JSON grammar, restricted to the ASCII range that can appear here. -/
def isJsWs (c : Char) : Bool :=
  c = ' ' || c = '\t' || c = '\n' || c = '\r' || c = '\x0b' || c = '\x0c'

/-- Drop leading JSON/JS whitespace. -/
def skipWs : List Char → List Char
  | [] => []
  | c :: r => if isJsWs c then skipWs r else c :: r

/-- JavaScript `s.trim()`. -/
def jsTrim (s : String) : String :=
  String.mk (((s.data.dropWhile isJsWs).reverse.dropWhile isJsWs).reverse)

/-- Boolean list-prefix test (needle, haystack). -/
def listStarts : List Char → List Char → Bool
  | [], _ => true
  | _ :: _, [] => false
  | x :: xs, y :: ys => x = y && listStarts xs ys

/-- Boolean substring test on character lists (JavaScript `includes`). -/
def listHas (needle : List Char) : List Char → Bool
  | [] => listStarts needle []
  | c :: r => listStarts needle (c :: r) || listHas needle r

/-- JavaScript `s.startsWith(pat)`. -/
def strStarts (s pat : String) : Bool := listStarts pat.data s.data

/-- JavaScript `s.endsWith(pat)`. -/
def strEnds (s pat : String) : Bool := listStarts pat.data.reverse s.data.reverse

/-- JavaScript `s.includes(pat)`. -/
def strHas (s pat : String) : Bool := listHas pat.data s.data

/-- ASCII decimal digit test. -/
def isDigitCh (c : Char) : Bool := '0' ≤ c && c ≤ '9'

/-- Numeric value of a decimal digit character. -/
def digitVal (c : Char) : Nat := c.toNat - '0'.toNat

/-- Split a maximal run of decimal digits off the front of a character list. -/
def takeDigits : List Char → (List Char × List Char)
  | [] => ([], [])
  | c :: r =>
    if isDigitCh c then
      let (ds, rest) := takeDigits r
      (c :: ds, rest)
    else ([], c :: r)

/-- Decimal digits to a natural number. -/
def digitsToNat (ds : List Char) : Nat :=
  ds.foldl (fun acc c => acc * 10 + digitVal c) 0

/-- Value of a hexadecimal digit character, if any (letters of either case). -/
def hexVal (c : Char) : Option Nat :=
  if isDigitCh c then some (digitVal c)
  else
    let lo := c.toLower
    if 'a' ≤ lo && lo ≤ 'f' then some (lo.toNat - 'a'.toNat + 10) else none

/-- Body of a JSON string literal after the opening quote: consume characters
and escape sequences up to the closing quote. -/
def parseStrBody (fuel : Nat) (cs : List Char) (acc : List Char) :
    Option (String × List Char) :=
  match fuel, cs with
  | 0, _ => none
  | _, [] => none
  | f + 1, c :: r =>
    if c = '"' then some (String.mk acc.reverse, r)
    else if c = '\\' then
      match r with
      | [] => none
      | e :: r2 =>
        if e = '"' then parseStrBody f r2 ('"' :: acc)
        else if e = '\\' then parseStrBody f r2 ('\\' :: acc)
        else if e = '/' then parseStrBody f r2 ('/' :: acc)
        else if e = 'b' then parseStrBody f r2 ('\x08' :: acc)
        else if e = 'f' then parseStrBody f r2 ('\x0c' :: acc)
        else if e = 'n' then parseStrBody f r2 ('\n' :: acc)
        else if e = 'r' then parseStrBody f r2 ('\r' :: acc)
        else if e = 't' then parseStrBody f r2 ('\t' :: acc)
        else if e = 'u' then
          match r2 with
          | h1 :: h2 :: h3 :: h4 :: r3 =>
            match hexVal h1, hexVal h2, hexVal h3, hexVal h4 with
            | some a, some b, some c3, some d =>
              let n := ((a * 16 + b) * 16 + c3) * 16 + d
              if 0xd800 ≤ n && n ≤ 0xdfff then none
              else parseStrBody f r3 (Char.ofNat n :: acc)
            | _, _, _, _ => none
          | _ => none
        else none
    else parseStrBody f r (c :: acc)

/-- Insert a key/value pair into an object field list, overwriting an existing
key in place as JavaScript property assignment does. -/
def insertField (l : List (String × Json)) (k : String) (v : Json) :
    List (String × Json) :=
  match l with
  | [] => [(k, v)]
  | (k0, v0) :: r => if k0 = k then (k0, v) :: r else (k0, v0) :: insertField r k v

mutual

/-- One JSON value off the front of the input (fuelled recursive descent). -/
def parseVal (fuel : Nat) (cs : List Char) : Option (Json × List Char) :=
  match fuel with
  | 0 => none
  | f + 1 =>
    match skipWs cs with
    | 'n' :: 'u' :: 'l' :: 'l' :: r => some (.null, r)
    | 't' :: 'r' :: 'u' :: 'e' :: r => some (.bool true, r)
    | 'f' :: 'a' :: 'l' :: 's' :: 'e' :: r => some (.bool false, r)
    | '"' :: r =>
      match parseStrBody (r.length + 1) r [] with
      | some (s, r2) => some (.str s, r2)
      | none => none
    | '\x7b' :: r => parseObjFirst f r
    | '[' :: r => parseArrFirst f r
    | '-' :: r =>
      let (ds, rest) := takeDigits r
      if ds = [] then none else some (.num (-(digitsToNat ds : Int)), rest)
    | c :: r =>
      if isDigitCh c then
        let (ds, rest) := takeDigits (c :: r)
        some (.num (digitsToNat ds : Int), rest)
      else none
    | [] => none

/-- Object body directly after `\x7b`: empty object or first member. -/
def parseObjFirst (fuel : Nat) (cs : List Char) : Option (Json × List Char) :=
  match fuel with
  | 0 => none
  | f + 1 =>
    match skipWs cs with
    | '\x7d' :: r => some (.obj [], r)
    | rest => parseMembers f rest []

/-- Members of a JSON object after the first `\x7b` (and after each comma). -/
def parseMembers (fuel : Nat) (cs : List Char) (acc : List (String × Json)) :
    Option (Json × List Char) :=
  match fuel with
  | 0 => none
  | f + 1 =>
    match skipWs cs with
    | '"' :: r =>
      match parseStrBody (r.length + 1) r [] with
      | some (k, r2) =>
        match skipWs r2 with
        | ':' :: r3 =>
          match parseVal f r3 with
          | some (v, r4) =>
            let acc2 := insertField acc k v
            match skipWs r4 with
            | ',' :: r5 => parseMembers f r5 acc2
            | '\x7d' :: r5 => some (.obj acc2, r5)
            | _ => none
          | none => none
        | _ => none
      | none => none
    | _ => none

/-- Array body directly after `[`: empty array or first element. -/
def parseArrFirst (fuel : Nat) (cs : List Char) : Option (Json × List Char) :=
  match fuel with
  | 0 => none
  | f + 1 =>
    match skipWs cs with
    | ']' :: r => some (.arr [], r)
    | rest => parseElems f rest []

/-- Elements of a JSON array after `[` (and after each comma). -/
def parseElems (fuel : Nat) (cs : List Char) (acc : List Json) :
    Option (Json × List Char) :=
  match fuel with
  | 0 => none
  | f + 1 =>
    match parseVal f cs with
    | some (v, r) =>
      match skipWs r with
      | ',' :: r2 => parseElems f r2 (acc ++ [v])
      | ']' :: r2 => some (.arr (acc ++ [v]), r2)
      | _ => none
    | none => none

end

/-- Model of `JSON.parse`: `none` where the JavaScript builtin throws. -/
def jsonParse (s : String) : Option Json :=
  match parseVal (4 * s.length + 8) s.data with
  | some (v, rest) => if skipWs rest = [] then some v else none
  | none => none

/-- Lower-case hexadecimal digit for an escape sequence. -/
def hexDigit (n : Nat) : Char :=
  if n < 10 then Char.ofNat ('0'.toNat + n) else Char.ofNat ('a'.toNat + n - 10)

/-- Escaping of one character inside a `JSON.stringify` string literal. -/
def escChar (c : Char) : List Char :=
  if c = '"' then ['\\', '"']
  else if c = '\\' then ['\\', '\\']
  else if c = '\x08' then ['\\', 'b']
  else if c = '\x0c' then ['\\', 'f']
  else if c = '\n' then ['\\', 'n']
  else if c = '\r' then ['\\', 'r']
  else if c = '\t' then ['\\', 't']
  else if c.toNat < 32 then
    ['\\', 'u', '0', '0', hexDigit (c.toNat / 16), hexDigit (c.toNat % 16)]
  else [c]

/-- A `JSON.stringify` string literal, quotes included. -/
def quoteStr (s : String) : String :=
  String.mk ('"' :: (s.data.map escChar).flatten ++ ['"'])

mutual

/-- Model of compact `JSON.stringify(v)`. -/
def stringifyJ : Json → String
  | .null => "null"
  | .bool true => "true"
  | .bool false => "false"
  | .num n => toString n
  | .str s => quoteStr s
  | .arr l => "[" ++ stringifyItems l ++ "]"
  | .obj l => "\x7b" ++ stringifyFields l ++ "\x7d"

/-- Comma-separated compact serialization of array elements. -/
def stringifyItems : List Json → String
  | [] => ""
  | [x] => stringifyJ x
  | x :: y :: r => stringifyJ x ++ "," ++ stringifyItems (y :: r)

/-- Comma-separated compact serialization of object members. -/
def stringifyFields : List (String × Json) → String
  | [] => ""
  | [(k, v)] => quoteStr k ++ ":" ++ stringifyJ v
  | (k, v) :: y :: r => quoteStr k ++ ":" ++ stringifyJ v ++ "," ++ stringifyFields (y :: r)

end

/-- A run of spaces used for pretty-printed indentation. -/
def spaces (n : Nat) : String := String.mk (List.replicate n ' ')

mutual

/-- Model of `JSON.stringify(v, null, 2)`; `ind` is the indentation column of
the enclosing bracket. -/
def prettyJ (ind : Nat) : Json → String
  | .null => "null"
  | .bool true => "true"
  | .bool false => "false"
  | .num n => toString n
  | .str s => quoteStr s
  | .arr [] => "[]"
  | .arr (x :: r) =>
    "[\n" ++ prettyItems (ind + 2) (x :: r) ++ "\n" ++ spaces ind ++ "]"
  | .obj [] => "\x7b\x7d"
  | .obj (kv :: r) =>
    "\x7b\n" ++ prettyFields (ind + 2) (kv :: r) ++ "\n" ++ spaces ind ++ "\x7d"

/-- Pretty-printed array elements, one per line. -/
def prettyItems (ind : Nat) : List Json → String
  | [] => ""
  | [x] => spaces ind ++ prettyJ ind x
  | x :: y :: r => spaces ind ++ prettyJ ind x ++ ",\n" ++ prettyItems ind (y :: r)

/-- Pretty-printed object members, one per line. -/
def prettyFields (ind : Nat) : List (String × Json) → String
  | [] => ""
  | [(k, v)] => spaces ind ++ quoteStr k ++ ": " ++ prettyJ ind v
  | (k, v) :: y :: r =>
    spaces ind ++ quoteStr k ++ ": " ++ prettyJ ind v ++ ",\n" ++ prettyFields ind (y :: r)

end

/-- JavaScript truthiness of a JSON value. -/
def truthy : Json → Bool
  | .null => false
  | .bool b => b
  | .num n => n ≠ 0
  | .str s => s ≠ ""
  | .arr _ => true
  | .obj _ => true

/-- JavaScript truthiness where `none` stands for `undefined`. -/
def truthyOpt : Option Json → Bool
  | none => false
  | some v => truthy v

/-- JavaScript property access `v[k]`: `none` is `undefined` (also on
non-objects, matching access on primitives and arrays). -/
def getField (v : Json) (k : String) : Option Json :=
  match v with
  | .obj fields => (fields.find? (fun p => p.fst = k)).map Prod.snd
  | _ => none

/-- Message roles of the chat protocol. -/
inductive Role where
  | system
  | user
  | assistant
  | tool
deriving Repr, DecidableEq

/-- A conversation message (fields not consulted by the modelled code paths,
such as `tool_call_id`, are omitted; a `null` content is modelled as `""`,
which the source normalises to anyway wherever it reads content). -/
structure Message where
  role : Role
  content : String
deriving Repr, DecidableEq

/-- A tool declaration; the TypeScript nesting `tool.function.name` is
flattened, and the optional `parameters` JSON-schema value is kept opaque. -/
structure Tool where
  name : String
  description : String
  parameters : Option Json
deriving Repr

/-- Header of the generated tool prompt (tool-converter.ts lines 9-10). -/
def promptHeader : String :=
  "You are a helpful assistant. You can help me by answering my questions. You can also ask me questions.\n\nhere are list of functions start with <<< end with >>>:\n<<<\n"

/-- Per-tool block of the generated tool prompt (tool-converter.ts lines 12-21). -/
def promptToolBlock (t : Tool) : String :=
  "Function: " ++ t.name ++ "\n" ++ "Description: " ++ t.description ++ "\n" ++
    (match t.parameters with
     | some p => if truthy p then "Parameters: " ++ prettyJ 0 p ++ "\n" else ""
     | none => "") ++ "\n"

/-- Trailer of the generated tool prompt (tool-converter.ts lines 23-44),
byte-for-byte the template literal of the source. -/
def promptTrailer : String :=
  ">>>\nTo use a function, you MUST respond with ONLY a valid JSON object in the following format, with no additional text, markdown formatting, or code blocks:\nfollow this format:\n\x7b\n  \"function_call\": \x7b\n    \"name\": \"function_name\",\n    \"arguments\": \x7b\n      \"param1\": \"value1\",\n      \"param2\": \"value2\"\n    \x7d\n  \x7d\n\x7d\n\nIMPORTANT: \n- Output ONLY the raw JSON object, only contains function_call, name, arguments, and parameters required, no additional properties.\n- Do NOT wrap the JSON in code blocks (no ```)\n- Do NOT include any explanatory text before or after the JSON\n- Ensure the JSON is valid and properly formatted\n- Ensure only JSON is returned, no additional text before or after json.\n- After receiving the function result, you can continue the conversation normally\ncheck with user prompt with functions above, if above function can be used solve user question, response with pure json follow function example.\nIf you don\x27t need to use a function, just respond normally without JSON."

/-- The Prompt Compiler `ToolConverter.convertToolsToSystemPrompt`: the empty
string for an empty list, otherwise header, one block per tool, trailer. -/
def convertToolsToSystemPrompt (tools : List Tool) : String :=
  if tools.length = 0 then ""
  else promptHeader ++ tools.foldl (fun acc t => acc ++ promptToolBlock t) "" ++ promptTrailer

/-- The literal `function_call` marker tested by `includes` during the brace
scan. -/
def marker : List Char := ['f', 'u', 'n', 'c', 't', 'i', 'o', 'n', '_', 'c', 'a', 'l', 'l']

/-- The brace scan of `extractToolCallFromResponse` (tool-converter.ts lines
67-89): walk the response with a depth counter; `startIdx` is set at the first
`\x7b` ever seen and, as in the source, never reset; each time the counter
returns to zero with `startIdx` set, the span from `startIdx` to the current
`\x7d` is a candidate, accepted if it contains `function_call`. -/
def braceScanAux (full : List Char) : List Char → Nat → Int → Option Nat → Option (List Char)
  | [], _, _, _ => none
  | c :: rest, i, count, startIdx =>
    if c = '\x7b' then
      braceScanAux full rest (i + 1) (count + 1) (some (startIdx.getD i))
    else if c = '\x7d' then
      let count2 := count - 1
      if count2 = 0 && startIdx.isSome then
        let st := startIdx.getD 0
        let cand := (full.drop st).take (i + 1 - st)
        if listHas marker cand then some cand
        else braceScanAux full rest (i + 1) count2 startIdx
      else braceScanAux full rest (i + 1) count2 startIdx
    else braceScanAux full rest (i + 1) count startIdx

/-- Entry point of the brace scan over the whole (untrimmed) response. -/
def braceScan (response : String) : Option String :=
  (braceScanAux response.data response.data 0 0 none).map String.mk

/-- Three backticks, the fence delimiter. -/
def ticks : List Char := ['`', '`', '`']

/-- Characters before the first following fence, `none` when no fence follows:
the lazily matched interior of a fenced block. -/
def takeUntilTicks : List Char → Option (List Char)
  | [] => none
  | c :: r => if listStarts ticks (c :: r) then some [] else (takeUntilTicks r).map (c :: ·)

/-- Case-insensitive prefix test used for the `json` language tag. -/
def listStartsCI (needle : List Char) (hay : List Char) : Bool :=
  listStarts needle (hay.take needle.length |>.map Char.toLower)

/-- The word `json` of the first code-block pattern. -/
def jsonWord : List Char := ['j', 's', 'o', 'n']

/-- Match of the first code-block regex at one position: a fence, optional
whitespace, the tag `json` (case-insensitive), then the lazy interior up to
the closing fence.  The whitespace after the tag is left inside the capture;
the source trims the capture, so the trimmed value is unchanged. -/
def cb1At (cs : List Char) : Option (List Char) :=
  if listStarts ticks cs then
    let afterWs := (cs.drop 3).dropWhile isJsWs
    if listStartsCI jsonWord afterWs then
      takeUntilTicks (afterWs.drop 4)
    else none
  else none

/-- Leftmost match of the `json`-tagged code-block pattern. -/
def findCB1 : List Char → Option (List Char)
  | [] => none
  | c :: r =>
    match cb1At (c :: r) with
    | some cap => some cap
    | none => findCB1 r

/-- Match of the untagged code-block regex at one position. -/
def cb2At (cs : List Char) : Option (List Char) :=
  if listStarts ticks cs then takeUntilTicks (cs.drop 3) else none

/-- Leftmost match of the untagged code-block pattern. -/
def findCB2 : List Char → Option (List Char)
  | [] => none
  | c :: r =>
    match cb2At (c :: r) with
    | some cap => some cap
    | none => findCB2 r

/-- First sentinel string of the extractor. -/
def sentinelA : String := "I need to call a function."

/-- Second sentinel string of the extractor (no trailing period). -/
def sentinelB : String := "I need to call a function"

/-- One opening brace, as a pattern string. -/
def openBraceS : String := "\x7b"

/-- One closing brace, as a pattern string. -/
def closeBraceS : String := "\x7d"

/-- Candidate selection of `extractToolCallFromResponse` (tool-converter.ts
lines 61-111): the trimmed response itself when it starts with `\x7b` and ends
with `\x7d`; otherwise the brace scan over the untrimmed response; otherwise
the trimmed interior of the first `json`-tagged, then of the first untagged,
fenced code block. -/
def selectJsonContent (response : String) : Option String :=
  let trimmed := jsTrim response
  if strStarts trimmed openBraceS && strEnds trimmed closeBraceS then some trimmed
  else
    match braceScan response with
    | some cand => some cand
    | none =>
      match findCB1 response.data with
      | some cap => some (jsTrim (String.mk cap))
      | none =>
        match findCB2 response.data with
        | some cap => some (jsTrim (String.mk cap))
        | none => none

/-- The structured call recovered by the extractor.  The nondeterministic
generated `id` and the constant `type` discriminator are omitted. -/
structure ToolCallF where
  name : Json
  argumentsJson : String
deriving Repr

/-- Key `function_call` of the call object. -/
def functionCallKey : String := "function_call"

/-- Key `name` of the call object. -/
def nameKey : String := "name"

/-- Key `arguments` of the call object. -/
def argumentsKey : String := "arguments"

/-- JavaScript `x || \x7b\x7d` where `none` stands for `undefined`: the value
itself when truthy, the empty object otherwise. -/
def orEmptyObj (o : Option Json) : Json :=
  match o with
  | some a => if truthy a then a else .obj []
  | none => .obj []

/-- Validation step of `extractToolCallFromResponse` (tool-converter.ts lines
116-124), exactly as the source tests it: `parsed.function_call &&
parsed.function_call.name` under JavaScript truthiness, with
`JSON.stringify(parsed.function_call.arguments || \x7b\x7d)` as the
serialized arguments. -/
def validateFC (parsed : Json) : Option ToolCallF :=
  let fc := getField parsed functionCallKey
  let nm := fc.bind (fun j => getField j nameKey)
  if truthyOpt fc && truthyOpt nm then
    some
      { name := nm.getD .null,
        argumentsJson := stringifyJ (orEmptyObj (fc.bind (fun j => getField j argumentsKey))) }
  else none

/-- The Tool-Call Extractor `ToolConverter.extractToolCallFromResponse`:
sentinel short-circuit, candidate selection, JSON parse (`none` where the
source catches the parse exception), and truthiness validation. -/
def extractToolCallFromResponse (response : String) : Option ToolCallF :=
  let trimmed := jsTrim response
  if trimmed = sentinelA ∨ trimmed = sentinelB then none
  else
    match selectJsonContent response with
    | none => none
    | some jsonContent =>
      match jsonParse jsonContent with
      | none => none
      | some parsed => validateFC parsed

/-- The quoted marker `"function_call"` of the raw-JSON regex and of the
streaming detector. -/
def markerQ : List Char :=
  ['"', 'f', 'u', 'n', 'c', 't', 'i', 'o', 'n', '_', 'c', 'a', 'l', 'l', '"']

/-- Remainder of the input after the first occurrence of the quoted marker,
`none` when the marker does not occur. -/
def afterMarkerQ : List Char → Option (List Char)
  | [] => none
  | c :: r =>
    if listStarts markerQ (c :: r) then some ((c :: r).drop markerQ.length)
    else afterMarkerQ r

/-- Index of the leftmost match of the code-block regex of
`extractTextBeforeToolCall`: a fence with some closing fence after it. -/
def cbPairIdxAux : List Char → Nat → Option Nat
  | [], _ => none
  | c :: r, i =>
    if listStarts ticks (c :: r) && (takeUntilTicks (r.drop 2)).isSome then some i
    else cbPairIdxAux r (i + 1)

/-- Index of the leftmost match of the raw-JSON regex of
`extractTextBeforeToolCall`: an opening brace followed (lazily) by the quoted
marker followed (lazily) by a closing brace. -/
def rawJsonIdxAux : List Char → Nat → Option Nat
  | [], _ => none
  | c :: r, i =>
    if c = '\x7b' &&
        (match afterMarkerQ r with
         | some rest => rest.any (fun d => d = '\x7d')
         | none => false) then
      some i
    else rawJsonIdxAux r (i + 1)

/-- `ToolConverter.extractTextBeforeToolCall` (tool-converter.ts lines
166-184): the trimmed text before the first fenced code block, else before
the first raw-JSON match, else the whole response. -/
def extractTextBeforeToolCall (response : String) : String :=
  match cbPairIdxAux response.data 0 with
  | some i => jsTrim (String.mk (response.data.take i))
  | none =>
    match rawJsonIdxAux response.data 0 with
    | some i => jsTrim (String.mk (response.data.take i))
    | none => response

/-- Does the conversation already contain a tool-role message
(`messages.some(m => m.role === 'tool')` in both handlers)? -/
def hasToolResponse (messages : List Message) : Bool :=
  messages.any (fun m => m.role = .tool)

/-- `request.tools || []`: an absent or null tool list becomes the empty
list (a present empty array is truthy in JavaScript and kept as is). -/
def effectiveTools (tools : Option (List Tool)) : List Tool :=
  tools.getD []

/-- Replace the content of the first system message, appending the tool
prompt after a blank line, as the mutating branch of
`injectToolSystemPrompt` does. -/
def appendToFirstSystem : List Message → String → List Message
  | [], _ => []
  | m :: rest, p =>
    if m.role = .system then { m with content := m.content ++ "\n\n" ++ p } :: rest
    else m :: appendToFirstSystem rest p

/-- `ProxyHandler.injectToolSystemPrompt`: merge into an existing system
message, or prepend a new one. -/
def injectToolSystemPrompt (messages : List Message) (toolPrompt : String) : List Message :=
  if messages.any (fun m => m.role = .system) then appendToFirstSystem messages toolPrompt
  else { role := .system, content := toolPrompt } :: messages

/-- Setup phase shared by `handleRequest` and `handleStreamingRequest`
(proxy-handler.ts lines 159-165 and 209-215): inject the compiled tool prompt
exactly when tools are present and the conversation holds no tool-role
message. -/
def setupMessages (messages : List Message) (tools : List Tool) : List Message :=
  if 0 < tools.length ∧ hasToolResponse messages = false then
    injectToolSystemPrompt messages (convertToolsToSystemPrompt tools)
  else messages

/-- Terminal outcome of one `handleRequest` round for a given backend reply. -/
inductive RoundOutcome where
  | completed (content : String)
  | toolCallReturned (tc : ToolCallF) (contentBefore : String)
  | roundLimitExceeded
deriving Repr

/-- Body of the `handleRequest` round loop for a backend reply `response`
(proxy-handler.ts lines 168-194): when the conversation has no tool-role
message, a successfully extracted call is returned to the client together
with the meaningful (non-blank) text before it; otherwise the reply is the
completed answer. -/
def roundBody (hasTool : Bool) (response : String) : RoundOutcome :=
  if !hasTool then
    match extractToolCallFromResponse response with
    | some tc =>
      let textBefore := extractTextBeforeToolCall response
      let meaningful := if textBefore ≠ "" ∧ jsTrim textBefore ≠ "" then textBefore else ""
      .toolCallReturned tc meaningful
    | none => .completed response
  else .completed response

/-- `config.maxRounds || 10` from the `ProxyHandler` constructor: an absent
(or zero, JavaScript-falsy) configured maximum becomes 10. -/
def effectiveMaxRounds (cfg : Option Int) : Int :=
  match cfg with
  | none => 10
  | some v => if v = 0 then 10 else v

/-- The update the body of the `while (round < maxRounds)` loop applies to
the `round` counter: the source declares `let round = 0` and contains no
increment of it, so one iteration leaves the counter unchanged. -/
def roundAfterIteration (round : Int) : Int := round

/-- The `while (round < maxRounds)` loop of `handleRequest`.  Every path of
the loop body ends in `return`, so the loop runs its body at most once: it
reduces to this conditional, and the trailing `throw` of the round-limit
error is reached exactly when the guard fails at entry. -/
def roundLoop (round : Int) (maxRounds : Int) (hasTool : Bool) (response : String) :
    RoundOutcome :=
  if round < maxRounds then roundBody hasTool response else .roundLimitExceeded

/-- Outcome of `ProxyHandler.handleRequest` for a configured round maximum,
conversation, tool list and backend reply (the backend call itself is outside
the model; the reply it returns is the `response` argument). -/
def handleRequest (cfg : Option Int) (messages : List Message) (_tools : List Tool)
    (response : String) : RoundOutcome :=
  roundLoop 0 (effectiveMaxRounds cfg) (hasToolResponse messages) response

/-- Finish reason `stop`. -/
def stopReason : String := "stop"

/-- Finish reason `tool_calls`. -/
def toolCallsReason : String := "tool_calls"

/-- One caller-visible chunk of the streaming response: a content delta, a
tool-call delta, or the closing chunk carrying a finish reason. -/
inductive StreamEvent where
  | content (text : String)
  | toolCall (tc : ToolCallF)
  | ended (reason : String)
deriving Repr

/-- Quoted marker as a pattern string. -/
def markerQS : String := "\"function_call\""

/-- Newline-then-brace pattern of the early detection test. -/
def nlBraceS : String := "\n\x7b"

/-- Early-detection predicate of `handleStreamingRequest` (proxy-handler.ts
lines 232-235) over the accumulated text. -/
def looksLikeToolCall (full : String) : Bool :=
  let trimmed := jsTrim full
  strStarts trimmed openBraceS || strStarts trimmed nlBraceS || strHas trimmed markerQS

/-- State of the streaming consumption loop: accumulated text, the
`toolCallDetected` flag, the buffered (unemitted) chunks, and the content
events already emitted. -/
structure LoopState where
  full : String
  detected : Bool
  buffered : List String
  events : List StreamEvent
deriving Repr

/-- One iteration of the `for await (const chunk of stream)` loop
(proxy-handler.ts lines 226-252). -/
def streamStep (hasTool : Bool) (st : LoopState) (chunk : String) : LoopState :=
  let full := st.full ++ chunk
  if !hasTool then
    if looksLikeToolCall full && !st.detected then
      { full := full, detected := true, buffered := st.buffered ++ [chunk],
        events := st.events }
    else if st.detected then
      { full := full, detected := st.detected, buffered := st.buffered ++ [chunk],
        events := st.events }
    else
      { full := full, detected := st.detected, buffered := st.buffered,
        events := st.events ++ [.content chunk] }
  else
    { full := full, detected := st.detected, buffered := st.buffered,
      events := st.events ++ [.content chunk] }

/-- Loop state before the first delta. -/
def initLoopState : LoopState :=
  { full := "", detected := false, buffered := [], events := [] }

/-- The whole consumption loop over the backend deltas. -/
def streamLoop (hasTool : Bool) (deltas : List String) : LoopState :=
  deltas.foldl (streamStep hasTool) initLoopState

/-- Events emitted after the source stream is exhausted (proxy-handler.ts
lines 255-281): on successful extraction, the meaningful text before the
call, the call, and the `tool_calls` closing chunk; on failure with the
detector triggered, the replay of the buffered chunks and the `stop` closing
chunk; otherwise just the `stop` closing chunk. -/
def finalEvents (hasTool : Bool) (st : LoopState) : List StreamEvent :=
  if !hasTool then
    match extractToolCallFromResponse st.full with
    | some tc =>
      let textBefore := extractTextBeforeToolCall st.full
      (if textBefore ≠ "" ∧ jsTrim textBefore ≠ "" then [.content textBefore] else []) ++
        [.toolCall tc, .ended toolCallsReason]
    | none =>
      (if st.detected = true ∧ 0 < st.buffered.length then st.buffered.map .content else []) ++
        [.ended stopReason]
  else [.ended stopReason]

/-- The full ordered event sequence `ProxyHandler.handleStreamingRequest`
yields for one round, given the conversation and the backend deltas. -/
def handleStreamingRequest (messages : List Message) (deltas : List String) :
    List StreamEvent :=
  let hasTool := hasToolResponse messages
  let st := streamLoop hasTool deltas
  st.events ++ finalEvents hasTool st

/-- Concatenation of the text of all `content` events, in emission order. -/
def contentConcat : List StreamEvent → String
  | [] => ""
  | .content s :: rest => s ++ contentConcat rest
  | _ :: rest => contentConcat rest

/-- Concatenation of a list of strings (the accumulated full text of a list
of deltas). -/
def joinAll : List String → String
  | [] => ""
  | s :: r => s ++ joinAll r

theorem strAppend_assoc (a b c : String) : a ++ b ++ c = a ++ (b ++ c) := by
  apply String.ext
  simp [String.data_append]

theorem strAppend_empty (a : String) : a ++ "" = a := by
  apply String.ext
  simp [String.data_append]

theorem strEmpty_append (a : String) : "" ++ a = a := by
  apply String.ext
  simp [String.data_append]

theorem contentConcat_append (a b : List StreamEvent) :
    contentConcat (a ++ b) = contentConcat a ++ contentConcat b := by
  induction a with
  | nil => simp [contentConcat, strEmpty_append]
  | cons e rest ih =>
    cases e with
    | content s => simp [contentConcat, ih, strAppend_assoc]
    | toolCall tc => simp [contentConcat, ih]
    | ended r => simp [contentConcat, ih]

theorem joinAll_append (a b : List String) :
    joinAll (a ++ b) = joinAll a ++ joinAll b := by
  induction a with
  | nil => simp [joinAll, strEmpty_append]
  | cons s rest ih => simp [joinAll, ih, strAppend_assoc]

theorem contentConcat_map (l : List String) :
    contentConcat (l.map .content) = joinAll l := by
  induction l with
  | nil => simp [contentConcat, joinAll]
  | cons s rest ih => simp [contentConcat, joinAll, ih]

theorem streamStep_inv (d : String) (st0 : LoopState)
    (g1 : st0.detected = false → st0.buffered = [])
    (g2 : contentConcat st0.events ++ joinAll st0.buffered = st0.full) :
    ((streamStep false st0 d).detected = false → (streamStep false st0 d).buffered = []) ∧
      contentConcat (streamStep false st0 d).events ++
        joinAll (streamStep false st0 d).buffered = (streamStep false st0 d).full ∧
      ((streamStep false st0 d).detected = true → (streamStep false st0 d).buffered ≠ []) ∧
      (streamStep false st0 d).full = st0.full ++ d := by
  cases hd : st0.detected with
  | true =>
    have hst : streamStep false st0 d =
        { full := st0.full ++ d, detected := true, buffered := st0.buffered ++ [d],
          events := st0.events } := by
      simp [streamStep, hd]
    rw [hst]
    refine ⟨?_, ?_, ?_, ?_⟩
    · intro hc
      exact absurd hc (by simp)
    · rw [joinAll_append, ← strAppend_assoc, g2]
      simp [joinAll, strAppend_empty]
    · intro _
      simp
    · rfl
  | false =>
    have hb : st0.buffered = [] := g1 hd
    have g2' : contentConcat st0.events = st0.full := by
      rw [hb] at g2
      simpa [joinAll, strAppend_empty] using g2
    cases hl : looksLikeToolCall (st0.full ++ d) with
    | true =>
      have hst : streamStep false st0 d =
          { full := st0.full ++ d, detected := true, buffered := st0.buffered ++ [d],
            events := st0.events } := by
        simp [streamStep, hd, hl]
      rw [hst]
      refine ⟨?_, ?_, ?_, ?_⟩
      · intro hc
        exact absurd hc (by simp)
      · rw [joinAll_append, ← strAppend_assoc, g2]
        simp [joinAll, strAppend_empty]
      · intro _
        simp
      · rfl
    | false =>
      have hst : streamStep false st0 d =
          { full := st0.full ++ d, detected := false, buffered := st0.buffered,
            events := st0.events ++ [StreamEvent.content d] } := by
        simp [streamStep, hd, hl]
      rw [hst]
      refine ⟨?_, ?_, ?_, ?_⟩
      · intro _
        exact hb
      · rw [hb, contentConcat_append]
        simp only [contentConcat, joinAll, strAppend_empty]
        rw [g2']
      · intro hc
        exact absurd hc (by simp)
      · rfl

theorem streamLoopFrom_inv (deltas : List String) (st : LoopState)
    (h1 : st.detected = false → st.buffered = [])
    (h2 : contentConcat st.events ++ joinAll st.buffered = st.full)
    (h3 : st.detected = true → st.buffered ≠ []) :
    ((deltas.foldl (streamStep false) st).detected = false →
        (deltas.foldl (streamStep false) st).buffered = []) ∧
      contentConcat (deltas.foldl (streamStep false) st).events ++
        joinAll (deltas.foldl (streamStep false) st).buffered =
          (deltas.foldl (streamStep false) st).full ∧
      ((deltas.foldl (streamStep false) st).detected = true →
        (deltas.foldl (streamStep false) st).buffered ≠ []) ∧
      (deltas.foldl (streamStep false) st).full = st.full ++ joinAll deltas := by
  induction deltas generalizing st with
  | nil =>
    exact ⟨h1, h2, h3, (strAppend_empty st.full).symm⟩
  | cons d rest ih =>
    obtain ⟨k1, k2, k3, k4⟩ := streamStep_inv d st h1 h2
    obtain ⟨m1, m2, m3, m4⟩ := ih (streamStep false st d) k1 k2 k3
    simp only [List.foldl_cons]
    refine ⟨m1, m2, m3, ?_⟩
    rw [m4, k4, joinAll, strAppend_assoc]

theorem streamLoop_inv (deltas : List String) :
    ((streamLoop false deltas).detected = false → (streamLoop false deltas).buffered = []) ∧
      contentConcat (streamLoop false deltas).events ++
        joinAll (streamLoop false deltas).buffered = (streamLoop false deltas).full ∧
      ((streamLoop false deltas).detected = true → (streamLoop false deltas).buffered ≠ []) ∧
      (streamLoop false deltas).full = joinAll deltas := by
  have h := streamLoopFrom_inv deltas initLoopState (fun _ => rfl) rfl (by intro hc; cases hc)
  have he : initLoopState.full ++ joinAll deltas = joinAll deltas := strEmpty_append _
  exact ⟨h.1, h.2.1, h.2.2.1, by rw [show (streamLoop false deltas).full =
    initLoopState.full ++ joinAll deltas from h.2.2.2, he]⟩

theorem streamLoopTrue_events (deltas : List String) (st : LoopState) :
    (deltas.foldl (streamStep true) st).events = st.events ++ deltas.map .content := by
  induction deltas generalizing st with
  | nil => simp
  | cons d rest ih =>
    have hst : streamStep true st d =
        { full := st.full ++ d, detected := st.detected, buffered := st.buffered,
          events := st.events ++ [StreamEvent.content d] } := by
      simp [streamStep]
    simp only [List.foldl_cons, hst, ih]
    simp

theorem roundBody_ne_limit (b : Bool) (response : String) :
    roundBody b response ≠ .roundLimitExceeded := by
  cases b with
  | true => simp [roundBody]
  | false =>
    unfold roundBody
    cases hx : extractToolCallFromResponse response with
    | some tc => simp
    | none => simp

theorem braceScanAux_marker (full : List Char) (cs : List Char) (i : Nat) (count : Int)
    (si : Option Nat) (c : List Char) (h : braceScanAux full cs i count si = some c) :
    listHas marker c = true := by
  induction cs generalizing i count si with
  | nil => simp [braceScanAux] at h
  | cons x rest ih =>
    unfold braceScanAux at h
    by_cases hx : x = '\x7b'
    · rw [if_pos hx] at h
      exact ih _ _ _ h
    · rw [if_neg hx] at h
      by_cases hy : x = '\x7d'
      · rw [if_pos hy] at h
        by_cases hz : (count - 1 = 0 && si.isSome) = true
        · rw [if_pos hz] at h
          by_cases hm : listHas marker ((full.drop (si.getD 0)).take (i + 1 - si.getD 0)) = true
          · rw [if_pos hm] at h
            cases h
            exact hm
          · rw [if_neg hm] at h
            exact ih _ _ _ h
        · rw [if_neg hz] at h
          exact ih _ _ _ h
      · rw [if_neg hy] at h
        exact ih _ _ _ h

theorem braceScanAux_fixed_start (full : List Char) (cs : List Char) (i : Nat) (count : Int)
    (k : Nat) (c : List Char) (h : braceScanAux full cs i count (some k) = some c) :
    ∃ j, c = (full.drop k).take j := by
  induction cs generalizing i count with
  | nil => simp [braceScanAux] at h
  | cons x rest ih =>
    unfold braceScanAux at h
    by_cases hx : x = '\x7b'
    · rw [if_pos hx] at h
      simp only [Option.getD_some] at h
      exact ih _ _ h
    · rw [if_neg hx] at h
      by_cases hy : x = '\x7d'
      · rw [if_pos hy] at h
        by_cases hz : (count - 1 = 0 && (Option.some k).isSome) = true
        · rw [if_pos hz] at h
          by_cases hm :
              listHas marker ((full.drop ((Option.some k).getD 0)).take
                (i + 1 - (Option.some k).getD 0)) = true
          · rw [if_pos hm] at h
            cases h
            exact ⟨i + 1 - k, rfl⟩
          · rw [if_neg hm] at h
            exact ih _ _ h
        · rw [if_neg hz] at h
          exact ih _ _ h
      · rw [if_neg hy] at h
        exact ih _ _ h

/-- The function name used by concrete streaming examples. -/
def xName : String := "x"

/-- Compact serialization of an empty arguments object. -/
def emptyObjS : String := "\x7b\x7d"

/-- First fragment of the fragmented-call delta sequence. -/
def fragDelta1 : String := "\x7b\"function"

/-- Second fragment of the fragmented-call delta sequence. -/
def fragDelta2 : String := "_call\":\x7b\"name\":\"x\","

/-- Third fragment of the fragmented-call delta sequence. -/
def fragDelta3 : String := "\"arguments\":\x7b\x7d\x7d\x7d"

/-- The fragmented-call delta sequence of the fragmentation example. -/
def fragDeltas : List String := [fragDelta1, fragDelta2, fragDelta3]

/-- A prose delta streamed before any JSON appears. -/
def helloDelta : String := "Hello "

/-- A complete tool-call JSON for the function `x` with empty arguments. -/
def xCallJson : String :=
  "\x7b\"function_call\":\x7b\"name\":\"x\",\"arguments\":\x7b\x7d\x7d\x7d"

/-- The trimmed text before the call in the duplication example. -/
def helloTrim : String := "Hello"

/-- The duplicated concatenation produced in the duplication example. -/
def helloHello : String := "Hello Hello"

/-- Input with one balanced object lacking the marker followed by one
carrying it, with text around both so that neither the direct-object branch
nor a clean scan applies. -/
def cexInput3 : String :=
  "A \x7b\"a\":1\x7d B \x7b\"function_call\":\x7b\"name\":\"f\",\"arguments\":\x7b\x7d\x7d\x7d C"

/-- The second balanced object of `cexInput3` alone. -/
def cexSecondObj : String :=
  "\x7b\"function_call\":\x7b\"name\":\"f\",\"arguments\":\x7b\x7d\x7d\x7d"

/-- The span the brace scan actually accepts on `cexInput3`: from the first
opening brace of the whole input to the closing brace of the second object. -/
def cexCombinedSpan : String :=
  "\x7b\"a\":1\x7d B \x7b\"function_call\":\x7b\"name\":\"f\",\"arguments\":\x7b\x7d\x7d\x7d"

/-- A call object whose name is a number, not a string. -/
def cexInput4 : String := "\x7b\"function_call\":\x7b\"name\":5\x7d\x7d"

/-- A sentinel input padded with surrounding whitespace. -/
def sentinelPadded : String := "  I need to call a function. "

/-- A brace-opened delta that never closes, so extraction fails. -/
def badDelta1 : String := "\x7bnope"

/-- A continuation delta for the failed-extraction example. -/
def badDelta2 : String := " x"

/-- A trimmed single-object candidate that is not valid JSON. -/
def invalidObjS : String := "\x7binvalid\x7d"

/-- A tool-role message (a conversation in its finalization round). -/
def toolMsg : Message := { role := .tool, content := "r" }

/-- A plain backend reply used by finalization-round examples. -/
def okResp : String := "ok"

/-- C5: an input whose trimmed text is exactly the sentinel
`I need to call a function.` (with or without the trailing period) makes the
Extractor return `none`; the sentinel test is the first test of
`extractToolCallFromResponse`, before any candidate-selection heuristic. -/
theorem sentinel_short_circuit (s : String)
    (h : jsTrim s = sentinelA ∨ jsTrim s = sentinelB) :
    extractToolCallFromResponse s = none := by
  unfold extractToolCallFromResponse
  simp only []
  rw [if_pos h]

/-- Witness for C5: the padded sentinel input trims to the first sentinel and
extraction returns `none`. -/
theorem sentinel_short_circuit_witness :
    (jsTrim sentinelPadded = sentinelA ∨ jsTrim sentinelPadded = sentinelB) ∧
      extractToolCallFromResponse sentinelPadded = none :=
  ⟨Or.inl rfl, sentinel_short_circuit sentinelPadded (Or.inl rfl)⟩

/-- C6: the Prompt Compiler returns exactly the empty string on the empty
tool list, and the orchestrator setup phase leaves the message list — hence
any system message in it — untouched, both for an absent tool list and for a
present empty one. -/
theorem empty_tools_no_injection :
    convertToolsToSystemPrompt [] = "" ∧
      (∀ messages : List Message, setupMessages messages (effectiveTools none) = messages) ∧
      (∀ messages : List Message, setupMessages messages [] = messages) := by
  refine ⟨rfl, ?_, ?_⟩
  · intro messages
    simp [setupMessages, effectiveTools]
  · intro messages
    simp [setupMessages]

/-- C9 counterexample: the body of the round loop applies no increment to the
round counter — one iteration maps the initial counter 0 to 0, not to 0 + 1,
refuting the claim that the counter is incremented on each iteration. -/
theorem round_counter_not_incremented_cex :
    roundAfterIteration 0 = 0 ∧ ¬roundAfterIteration 0 = 0 + 1 :=
  ⟨rfl, by decide⟩

/-- C9 (amended): the round counter starts at 0 and is left unchanged by each
iteration; the loop is bounded by the configured maximum, which defaults to
10 when unset (or configured as the falsy 0); the body reaches a terminal
outcome on every path, so the round loop runs its body at most once and
`RoundLimitExceeded` is raised exactly when the effective maximum is not
positive at entry. -/
theorem round_loop_behavior (cfg : Option Int) (messages : List Message)
    (tools : List Tool) (response : String) :
    effectiveMaxRounds none = 10 ∧
      effectiveMaxRounds (some 0) = 10 ∧
      (∀ r : Int, roundAfterIteration r = r) ∧
      (handleRequest cfg messages tools response = .roundLimitExceeded ↔
        effectiveMaxRounds cfg ≤ 0) ∧
      (∀ b : Bool, roundBody b response ≠ .roundLimitExceeded) := by
  refine ⟨rfl, rfl, fun r => rfl, ?_, fun b => roundBody_ne_limit b response⟩
  unfold handleRequest roundLoop
  by_cases hm : (0 : Int) < effectiveMaxRounds cfg
  · rw [if_pos hm]
    constructor
    · intro he
      exact absurd he (roundBody_ne_limit _ _)
    · intro hle
      omega
  · rw [if_neg hm]
    constructor
    · intro _
      omega
    · intro _
      rfl

/-- C10: the Extractor is total by construction of the embedding (it is a
Lean function into `Option`), and in particular when the selected candidate
fails to parse as JSON — the branch where the source catches the
`JSON.parse` exception — the result is `none` rather than an error. -/
theorem extractor_parse_failure_yields_none (s c : String)
    (hsel : selectJsonContent s = some c) (hparse : jsonParse c = none) :
    extractToolCallFromResponse s = none := by
  unfold extractToolCallFromResponse
  by_cases hs : jsTrim s = sentinelA ∨ jsTrim s = sentinelB
  · rw [if_pos hs]
  · rw [if_neg hs, hsel]
    simp only []
    rw [hparse]

/-- Witness for C10: the candidate selected from a brace-delimited but
invalid input fails to parse and extraction returns `none`. -/
theorem extractor_parse_failure_yields_none_witness :
    selectJsonContent invalidObjS = some invalidObjS ∧
      jsonParse invalidObjS = none ∧
      extractToolCallFromResponse invalidObjS = none :=
  ⟨rfl, rfl, extractor_parse_failure_yields_none invalidObjS invalidObjS rfl rfl⟩

/-- C2: for any conversation without a tool-role message, feeding the three
deltas `\x7b"function`, `_call":\x7b"name":"x",` and `"arguments":\x7b\x7d\x7d\x7d`
to the streaming handler yields exactly a tool-call event for function `x`
with arguments serialization `\x7b\x7d`, followed by the `tool_calls` closing
chunk, with no content event before the call. -/
theorem streaming_fragmented_call_events (messages : List Message)
    (h : hasToolResponse messages = false) :
    handleStreamingRequest messages fragDeltas =
      [.toolCall { name := .str xName, argumentsJson := emptyObjS },
        .ended toolCallsReason] := by
  unfold handleStreamingRequest
  rw [h]
  rfl

/-- Witness for C2: the empty conversation has no tool-role message, and the
fragmented deltas produce the tool call and the closing chunk. -/
theorem streaming_fragmented_call_events_witness :
    hasToolResponse ([] : List Message) = false ∧
      handleStreamingRequest [] fragDeltas =
        [.toolCall { name := .str xName, argumentsJson := emptyObjS },
          .ended toolCallsReason] :=
  ⟨rfl, streaming_fragmented_call_events [] rfl⟩

/-- C7: in a finalization round (some tool-role message present), the setup
phase injects nothing — no system message is created or altered — the
streaming handler emits every delta immediately as content and closes with
`stop`, and the non-streaming round body completes with the plain reply,
bypassing the extractor branch entirely. -/
theorem finalization_round_passthrough (messages : List Message) (tools : List Tool)
    (deltas : List String) (response : String) (h : hasToolResponse messages = true) :
    setupMessages messages tools = messages ∧
      handleStreamingRequest messages deltas =
        deltas.map .content ++ [.ended stopReason] ∧
      roundBody (hasToolResponse messages) response = .completed response := by
  refine ⟨?_, ?_, ?_⟩
  · unfold setupMessages
    rw [if_neg]
    intro hc
    rw [h] at hc
    exact absurd hc.2 (by simp)
  · simp only [handleStreamingRequest, h, streamLoop]
    rw [streamLoopTrue_events]
    simp [finalEvents, initLoopState]
  · rw [h]
    simp [roundBody]

/-- Witness for C7: a conversation holding one tool-role message streams the
prose delta through unchanged and completes the non-streaming round with the
plain reply. -/
theorem finalization_round_passthrough_witness :
    hasToolResponse [toolMsg] = true ∧
      setupMessages [toolMsg] [] = [toolMsg] ∧
      handleStreamingRequest [toolMsg] [helloDelta] =
        [.content helloDelta, .ended stopReason] ∧
      roundBody (hasToolResponse [toolMsg]) okResp = .completed okResp := by
  have hmain := finalization_round_passthrough [toolMsg] [] [helloDelta] okResp rfl
  exact ⟨rfl, hmain.1, hmain.2.1, hmain.2.2⟩

/-- C8: when extraction over the accumulated text fails, the events emitted
after the loop are exactly the replay of every buffered delta, in original
arrival order, followed by the `stop` closing chunk if the detector entered
suspect mode — whose buffer is then provably nonempty — and just the `stop`
closing chunk if the detector never left passthrough mode. -/
theorem streaming_failure_replay (messages : List Message) (deltas : List String)
    (h : hasToolResponse messages = false)
    (hfail : extractToolCallFromResponse (streamLoop false deltas).full = none) :
    ((streamLoop false deltas).detected = true →
        handleStreamingRequest messages deltas =
          (streamLoop false deltas).events ++
            (streamLoop false deltas).buffered.map .content ++ [.ended stopReason]) ∧
      ((streamLoop false deltas).detected = false →
        handleStreamingRequest messages deltas =
          (streamLoop false deltas).events ++ [.ended stopReason]) ∧
      ((streamLoop false deltas).detected = true → (streamLoop false deltas).buffered ≠ []) := by
  have hnb : (streamLoop false deltas).detected = true →
      (streamLoop false deltas).buffered ≠ [] :=
    (streamLoopFrom_inv deltas initLoopState (fun _ => rfl) (by rfl)
      (by intro hc; cases hc)).2.2.1
  refine ⟨?_, ?_, hnb⟩
  · intro hd
    simp only [handleStreamingRequest, h, finalEvents, hfail, Bool.not_false, if_true]
    rw [if_pos ⟨hd, List.length_pos.2 (hnb hd)⟩]
    simp [List.append_assoc]
  · intro hd
    simp only [handleStreamingRequest, h, finalEvents, hfail, Bool.not_false, if_true]
    rw [if_neg]
    · simp
    · intro hc
      rw [hd] at hc
      exact absurd hc.1 (by simp)

/-- Witness for C8: the deltas `\x7bnope` and ` x` trigger suspicion on the
first chunk, extraction over the accumulated text fails, and both buffered
deltas are replayed before the `stop` closing chunk. -/
theorem streaming_failure_replay_witness :
    hasToolResponse ([] : List Message) = false ∧
      extractToolCallFromResponse (streamLoop false [badDelta1, badDelta2]).full = none ∧
      (streamLoop false [badDelta1, badDelta2]).detected = true ∧
      handleStreamingRequest [] [badDelta1, badDelta2] =
        (streamLoop false [badDelta1, badDelta2]).events ++
          (streamLoop false [badDelta1, badDelta2]).buffered.map .content ++
            [.ended stopReason] :=
  ⟨rfl, rfl, rfl, (streaming_failure_replay [] [badDelta1, badDelta2] rfl rfl).1 rfl⟩

/-- C1 counterexample: streaming `Hello ` followed by a complete tool-call
JSON makes the handler first stream `Hello ` live (suspicion has not yet
triggered), then, after successful extraction, emit the trimmed text before
the call — `Hello` — a second time: the concatenated content is
`Hello Hello`, which differs from the accumulated text with the recognized
span removed (whether taken untrimmed as `Hello ` or trimmed as `Hello`), so
a delta is duplicated. -/
theorem streaming_content_duplication_cex :
    handleStreamingRequest [] [helloDelta, xCallJson] =
      [.content helloDelta, .content helloTrim,
        .toolCall { name := .str xName, argumentsJson := emptyObjS },
        .ended toolCallsReason] ∧
      contentConcat (handleStreamingRequest [] [helloDelta, xCallJson]) = helloHello ∧
      joinAll [helloDelta, xCallJson] = helloDelta ++ xCallJson ∧
      helloHello ≠ helloDelta ∧ helloHello ≠ helloTrim :=
  ⟨rfl, rfl, rfl, by decide, by decide⟩

/-- C1 (amended): the no-drop/no-duplication guarantee holds on the failure
path — whenever extraction over the accumulated text fails, the
concatenation of all emitted content, in emission order, equals the
accumulated text exactly (nothing dropped, nothing duplicated); when
extraction succeeds, the content before the call is recomputed from the full
accumulated text and re-emitted, so text already streamed in passthrough
mode is emitted a second time when it is non-blank. -/
theorem streaming_content_conservation_on_failure (messages : List Message)
    (deltas : List String) (h : hasToolResponse messages = false)
    (hfail : extractToolCallFromResponse (joinAll deltas) = none) :
    contentConcat (handleStreamingRequest messages deltas) = joinAll deltas := by
  obtain ⟨i1, i2, _, i4⟩ := streamLoop_inv deltas
  have hfail' : extractToolCallFromResponse (streamLoop false deltas).full = none := by
    rw [i4]
    exact hfail
  simp only [handleStreamingRequest, h, finalEvents, hfail', Bool.not_false, if_true]
  rw [contentConcat_append]
  by_cases hd : (streamLoop false deltas).detected = true ∧
      0 < (streamLoop false deltas).buffered.length
  · rw [if_pos hd, contentConcat_append, contentConcat_map]
    simp only [contentConcat, strAppend_empty]
    rw [i2, i4]
  · rw [if_neg hd]
    have hb : (streamLoop false deltas).buffered = [] := by
      cases hdet : (streamLoop false deltas).detected with
      | false => exact i1 hdet
      | true =>
        by_contra hne
        exact hd ⟨hdet, List.length_pos.2 hne⟩
    rw [hb] at i2
    simp only [joinAll, strAppend_empty] at i2
    simp only [List.nil_append, contentConcat, strAppend_empty]
    rw [i2, i4]

/-- Witness for C1 (amended): two deltas that trigger suspicion but parse to
no call are all replayed, and the concatenated content equals the
accumulated text. -/
theorem streaming_content_conservation_witness :
    hasToolResponse ([] : List Message) = false ∧
      extractToolCallFromResponse (joinAll [badDelta1, badDelta2]) = none ∧
      contentConcat (handleStreamingRequest [] [badDelta1, badDelta2]) =
        joinAll [badDelta1, badDelta2] :=
  ⟨rfl, rfl, streaming_content_conservation_on_failure [] [badDelta1, badDelta2] rfl rfl⟩

/-- C3 counterexample: on one balanced object without the marker followed by
one balanced object with it, the accepted candidate is not the second object
alone but the span from the first opening brace of the whole input, and
extraction returns `none` (the span is not valid JSON) instead of the call
the second object encodes. -/
theorem brace_scan_second_object_cex :
    selectJsonContent cexInput3 = some cexCombinedSpan ∧
      cexCombinedSpan ≠ cexSecondObj ∧
      extractToolCallFromResponse cexInput3 = none :=
  ⟨rfl, by decide, rfl⟩

/-- C3 (amended): the scan keeps a brace-depth counter and accepts the first
candidate containing the literal `function_call`, but the candidate start is
the first `\x7b` of the entire input — the start index is set once and never
reset after a rejected candidate — so each candidate is a prefix of the text
from that first brace; on the two-object input the accepted candidate
therefore spans both objects and the interleaving text, fails to parse, and
extraction returns `none`. -/
theorem brace_scan_fixed_start_behavior :
    (∀ (full cs : List Char) (i : Nat) (count : Int) (k : Nat) (c : List Char),
        braceScanAux full cs i count (some k) = some c → ∃ j, c = (full.drop k).take j) ∧
      (∀ (s : String) (c : String), braceScan s = some c → listHas marker c.data = true) ∧
      braceScan cexInput3 = some cexCombinedSpan ∧
      jsonParse cexCombinedSpan = none ∧
      extractToolCallFromResponse cexInput3 = none := by
  refine ⟨braceScanAux_fixed_start, ?_, rfl, rfl, rfl⟩
  intro s c hsc
  unfold braceScan at hsc
  cases hx : braceScanAux s.data s.data 0 0 none with
  | none =>
    rw [hx] at hsc
    cases hsc
  | some l =>
    rw [hx] at hsc
    cases hsc
    exact braceScanAux_marker s.data s.data 0 0 none l hx

/-- Witness for C3 (amended): on the two-object input, the accepted span
contains the marker, and from the mid-scan state right after the first brace
(position 2) the returned candidate is a prefix of the text from that
brace. -/
theorem brace_scan_fixed_start_behavior_witness :
    braceScan cexInput3 = some cexCombinedSpan ∧
      listHas marker cexCombinedSpan.data = true ∧
      (∃ j, cexCombinedSpan.data = (cexInput3.data.drop 2).take j) :=
  ⟨rfl, brace_scan_fixed_start_behavior.2.1 cexInput3 cexCombinedSpan rfl,
    brace_scan_fixed_start_behavior.1 cexInput3.data (cexInput3.data.drop 3) 3 1 2
      cexCombinedSpan.data rfl⟩

/-- C4 counterexample: the candidate `\x7b"function_call":\x7b"name":5\x7d\x7d`
has a `function_call.name` that is a number, not text, yet the Extractor
returns a call whose name is that number (with the default empty-object
arguments), refuting both that a result requires a text-typed name and that
a non-text name yields `none`. -/
theorem extractor_truthy_name_cex :
    extractToolCallFromResponse cexInput4 =
      some { name := .num 5, argumentsJson := emptyObjS } ∧
      (∀ t : String, Json.num 5 ≠ Json.str t) :=
  ⟨rfl, fun _ h => Json.noConfusion h⟩

/-- C4 (amended): validation is JavaScript truthiness, not a type test — a
parsed candidate yields a call exactly when `function_call` is truthy and
`function_call.name` is truthy (any truthy JSON value is accepted as the
name); the serialized arguments are `function_call.arguments` when that
value is truthy and the empty object otherwise (so absent, null, zero,
false, and empty-string arguments all serialize as `\x7b\x7d`). -/
theorem validateFC_truthiness_spec (v : Json) (tc : ToolCallF) :
    validateFC v = some tc ↔
      ((truthyOpt (getField v functionCallKey) &&
          truthyOpt ((getField v functionCallKey).bind (fun j => getField j nameKey))) = true ∧
        tc = { name := ((getField v functionCallKey).bind (fun j => getField j nameKey)).getD .null,
               argumentsJson :=
                 stringifyJ (orEmptyObj
                   ((getField v functionCallKey).bind (fun j => getField j argumentsKey))) }) := by
  simp only [validateFC]
  by_cases hcond : (truthyOpt (getField v functionCallKey) &&
      truthyOpt ((getField v functionCallKey).bind (fun j => getField j nameKey))) = true
  · rw [if_pos hcond]
    constructor
    · intro he
      injection he with he'
      exact ⟨hcond, he'.symm⟩
    · rintro ⟨_, rfl⟩
      rfl
  · rw [if_neg hcond]
    constructor
    · intro he
      cases he
    · rintro ⟨hc, _⟩
      exact absurd hc hcond

end LLMToolBridge
